import Mathlib

set_option maxRecDepth 8192

/-!
Verification of the date-service utility module (src/utils/dates/date-service.js).

The JavaScript source is shallowly embedded as executable Lean definitions.
The module manipulates JavaScript Date values only at day granularity, so a
Date value is modelled as a calendar triple (year, month, day).  The behavior
of the JavaScript built-ins the source delegates to (the Date constructor,
Date.prototype accessors, String(), padStart, slice, split, ISO date-string
parsing) is modelled from their ECMAScript-specified semantics, which are
reproduced next to each definition.  Two modelling conventions, both noted
where they matter:
- the local time zone is taken to be UTC (the module is documented as
  timezone-naive and performs no time-of-day arithmetic);
- date strings that do not conform to the ECMAScript Date Time String Format
  (the only parse format ECMAScript specifies) are modelled as producing an
  invalid Date; for non-conforming strings an engine may apply unspecified
  fallback heuristics, so theorems about parsing are stated on conforming
  strings.
-/

/-- Character for the decimal digit n (n is between 0 and 9). -/
def dchar (n : Nat) : Char := Char.ofNat (48 + n)

/-- Numeric value of a decimal digit character. -/
def dval (c : Char) : Nat := c.toNat - 48

/-- Tests whether a character is a decimal digit. -/
def isDig (c : Char) : Bool := 48 ≤ c.toNat && c.toNat ≤ 57

/-- Decimal digit characters of a natural number, most significant first,
with explicit fuel so that the definition is structural and computes by
kernel reduction.  The fuel n + 1 always suffices. -/
def natDigitsAux : Nat → Nat → List Char
  | 0, _ => []
  | f + 1, n => if n < 10 then [dchar n] else natDigitsAux f (n / 10) ++ [dchar (n % 10)]

/-- Decimal digit characters of a natural number, most significant first. -/
def natDigits (n : Nat) : List Char := natDigitsAux (n + 1) n

/-- Decimal string of a natural number. -/
def natStr (n : Nat) : String := ⟨natDigits n⟩

/-- Model of the JavaScript String() conversion on an integer-valued number:
its decimal representation, with a leading minus sign when negative. -/
def jsIntToString (i : Int) : String :=
  if i < 0 then "-" ++ natStr i.natAbs else natStr i.toNat

/-- Model of the JavaScript s.padStart(n, "0"): prepends zeros until the
length is at least n. -/
def padStartZeros (n : Nat) (s : String) : String :=
  ⟨List.replicate (n - s.data.length) '0' ++ s.data⟩

/-- Model of the JavaScript s.slice(-2): the last two characters of s
(all of s when s has fewer than two characters). -/
def sliceLast2 (s : String) : String :=
  ⟨s.data.drop (s.data.length - 2)⟩

/-- Splitting a character list at every occurrence of a separator character;
models the JavaScript String.prototype.split with a single-character
separator (an empty input yields one empty part, as in JavaScript). -/
def jsSplitChars (sep : Char) : List Char → List (List Char)
  | [] => [[]]
  | c :: rest =>
    if c = sep then [] :: jsSplitChars sep rest
    else
      match jsSplitChars sep rest with
      | [] => [[c]]
      | h :: t => (c :: h) :: t

/-- Model of the JavaScript s.split(sep) for a single-character separator. -/
def jsSplit (sep : Char) (s : String) : List String :=
  (jsSplitChars sep s.data).map (fun l => ⟨l⟩)

/-- Model of the JavaScript string coercion of a possibly-undefined string
value: undefined converts to the string "undefined". -/
def undefOr (o : Option String) : String := o.getD "undefined"

-- sanity checks on the string primitives
example : natStr 2024 = "2024" := by decide
example : jsIntToString (-5) = "-5" := by decide
example : padStartZeros 2 (natStr 7) = "07" := by decide
example : sliceLast2 (natStr 2025) = "25" := by decide
example : jsSplit '-' "01-01-2024-99" = ["01", "01", "2024", "99"] := by decide
example : jsSplit '-' "" = [""] := by decide
example : jsSplit '-' "abc" = ["abc"] := by decide

/-- Translation of DateService.isLeapYear from the source:
return (year % 4 === 0 && year % 100 !== 0) || (year % 400 === 0).
The JavaScript % on integers is the truncated remainder, modelled by
Int.tmod.  The same rule is the Gregorian leap-year rule used by the
model of the Date built-ins below. -/
def isLeapYear (year : Int) : Bool :=
  (year.tmod 4 == 0 && year.tmod 100 != 0) || year.tmod 400 == 0

/-- Number of days in a month of the proleptic Gregorian calendar, month
given as 1 to 12 (0 for arguments outside that range, which the model never
consults). -/
def daysInMonth (y m : Int) : Int :=
  if m = 2 then (if isLeapYear y then 29 else 28)
  else if m = 4 ∨ m = 6 ∨ m = 9 ∨ m = 11 then 30
  else if m = 1 ∨ m = 3 ∨ m = 5 ∨ m = 7 ∨ m = 8 ∨ m = 10 ∨ m = 12 then 31
  else 0

/-- A JavaScript Date value at day granularity: the calendar triple read
back through getFullYear / getMonth + 1 / getDate.  The module under
verification never inspects time-of-day, and the local time zone is taken
to be UTC, so a Date is fully described by this triple. -/
structure CalDate where
  year : Int
  month : Int
  day : Int
deriving DecidableEq

/-- A calendar-valid triple: month between 1 and 12 and day between 1 and
the length of that month. -/
def validDate (x : CalDate) : Prop :=
  1 ≤ x.month ∧ x.month ≤ 12 ∧ 1 ≤ x.day ∧ x.day ≤ daysInMonth x.year x.month

instance (x : CalDate) : Decidable (validDate x) := by
  unfold validDate; infer_instance

/-- The calendar day after the given valid day. -/
def nextDay (x : CalDate) : CalDate :=
  if x.day < daysInMonth x.year x.month then ⟨x.year, x.month, x.day + 1⟩
  else if x.month < 12 then ⟨x.year, x.month + 1, 1⟩
  else ⟨x.year + 1, 1, 1⟩

/-- The calendar day before the given valid day. -/
def prevDay (x : CalDate) : CalDate :=
  if 1 < x.day then ⟨x.year, x.month, x.day - 1⟩
  else if 1 < x.month then ⟨x.year, x.month - 1, daysInMonth x.year (x.month - 1)⟩
  else ⟨x.year - 1, 12, 31⟩

/-- Stepping forward a number of days. -/
def addDaysFwd : CalDate → Nat → CalDate
  | x, 0 => x
  | x, n + 1 => addDaysFwd (nextDay x) n

/-- Stepping backward a number of days. -/
def addDaysBwd : CalDate → Nat → CalDate
  | x, 0 => x
  | x, n + 1 => addDaysBwd (prevDay x) n

/-- Adding a signed number of days to a date.  This models the ECMAScript
day arithmetic performed on the time value (MakeDay and setDate work in
whole days at day granularity). -/
def addDaysToDate (x : CalDate) (n : Int) : CalDate :=
  if 0 ≤ n then addDaysFwd x n.toNat else addDaysBwd x (-n).toNat

/-- Model of the ECMAScript MakeFullYear conversion applied by the Date
constructor: an integer year between 0 and 99 is interpreted as 1900 plus
that year; other years are used as given. -/
def makeFullYear (y : Int) : Int :=
  if 0 ≤ y ∧ y ≤ 99 then 1900 + y else y

/-- Model of the JavaScript Date constructor new Date(y, monthIndex, day)
at day granularity, per ECMAScript MakeDay: the year and the zero-based
month are first normalized by ym = y + floor(m / 12), mn = m modulo 12
(floor division and nonnegative modulo), and the day argument then offsets
from day 1 of that month, rolling over month and year boundaries in either
direction. -/
def jsMakeDate (y mIdx d : Int) : CalDate :=
  let yr := makeFullYear y
  let ym := yr + mIdx.fdiv 12
  let mn := mIdx % 12
  addDaysToDate ⟨ym, mn + 1, 1⟩ (d - 1)

/-- Model of new Date(isoString) for the strings assembled by the source
(always of the shape year-month-day): per the ECMAScript Date Time String
Format, a date-only string is accepted when it is exactly four digits, a
hyphen, two digits, a hyphen and two digits, denoting an existing calendar
date; it is then interpreted at UTC midnight.  Every other string (whose
parsing ECMAScript leaves to unspecified engine heuristics) is modelled as
an invalid Date, represented by none. -/
def parseISODate (s : String) : Option CalDate :=
  match s.data with
  | [y1, y2, y3, y4, h1, m1, m2, h2, d1, d2] =>
    if h1 = '-' ∧ h2 = '-' ∧ isDig y1 ∧ isDig y2 ∧ isDig y3 ∧ isDig y4 ∧
        isDig m1 ∧ isDig m2 ∧ isDig d1 ∧ isDig d2 then
      let y : Int := ((dval y1 * 10 + dval y2) * 10 + dval y3) * 10 + dval y4
      let m : Int := dval m1 * 10 + dval m2
      let d : Int := dval d1 * 10 + dval d2
      if 1 ≤ m ∧ m ≤ 12 ∧ 1 ≤ d ∧ d ≤ daysInMonth y m then some ⟨y, m, d⟩
      else none
    else none
  | _ => none

-- sanity checks on the Date model
example : jsMakeDate 2024 3 31 = ⟨2024, 5, 1⟩ := by decide
example : jsMakeDate 2024 1 29 = ⟨2024, 2, 29⟩ := by decide
example : addDaysToDate ⟨2023, 12, 31⟩ 1 = ⟨2024, 1, 1⟩ := by decide
example : addDaysToDate ⟨2024, 3, 1⟩ (-1) = ⟨2024, 2, 29⟩ := by decide
example : addDaysToDate ⟨2023, 2, 28⟩ 1 = ⟨2023, 3, 1⟩ := by decide
example : parseISODate "2024-02-29" = some ⟨2024, 2, 29⟩ := by decide
example : parseISODate "2024-02-31" = none := by decide
example : parseISODate "2024-13-13" = none := by decide
example : parseISODate "undefined-2024-01" = none := by decide

/-- Count of Gregorian leap years in the interval from 1 to y (for
nonnegative y; via floor division the same expression extends the count to
all integers). -/
def leapCount (y : Int) : Int := y.fdiv 4 - y.fdiv 100 + y.fdiv 400

/-- Days of the year that precede month m (as in a non-leap year). -/
def monthOffset (m : Int) : Int :=
  if m = 1 then 0
  else if m = 2 then 31
  else if m = 3 then 59
  else if m = 4 then 90
  else if m = 5 then 120
  else if m = 6 then 151
  else if m = 7 then 181
  else if m = 8 then 212
  else if m = 9 then 243
  else if m = 10 then 273
  else if m = 11 then 304
  else if m = 12 then 334
  else 0

/-- Days of year y that precede month m. -/
def daysBeforeMonth (y m : Int) : Int :=
  monthOffset m + (if 3 ≤ m ∧ isLeapYear y = true then 1 else 0)

/-- The one-based ordinal of the day within its year. -/
def dayOfYear (x : CalDate) : Int := daysBeforeMonth x.year x.month + x.day

/-- A linear day number for a calendar date: the count of days from a fixed
reference up to and including the date.  Consecutive valid dates receive
consecutive numbers. -/
def dayNumber (x : CalDate) : Int :=
  365 * x.year + leapCount (x.year - 1) + dayOfYear x

/-- Model of Date.prototype.getTime (equally valueOf) for the dates handled
by this module: the time value is the number of milliseconds since the
epoch, and at UTC midnight it is 86400000 times the number of days since
1970-01-01. -/
def jsGetTime (x : CalDate) : Int :=
  86400000 * (dayNumber x - dayNumber ⟨1970, 1, 1⟩)

/-- The five format layout strings accepted by the source, as a closed
enumeration (the source matches the format string in a switch whose
default case throws; no claim concerns an unsupported format, so the
format argument is embedded as this enumeration). -/
inductive DateFormat where
  | MMDDYYYY
  | MMDDYY
  | DDMMYYYY
  | DDMMYY
  | YYYYMMDD
deriving DecidableEq

/-- True for the two layouts with a two-digit year token. -/
def isYYFormat : DateFormat → Bool
  | .MMDDYY => true
  | .DDMMYY => true
  | _ => false

/-- Translation of formatDate from the source:
dd = String(date.getDate()).padStart(2, "0"),
mm = String(date.getMonth() + 1).padStart(2, "0"),
yyyy = date.getFullYear(), yy = String(yyyy).slice(-2),
assembled per the switch on the format. -/
def formatDate (date : CalDate) (format : DateFormat) : String :=
  let dd := padStartZeros 2 (jsIntToString date.day)
  let mm := padStartZeros 2 (jsIntToString date.month)
  let yyyy := jsIntToString date.year
  let yy := sliceLast2 yyyy
  match format with
  | .MMDDYYYY => mm ++ "-" ++ dd ++ "-" ++ yyyy
  | .MMDDYY => mm ++ "-" ++ dd ++ "-" ++ yy
  | .DDMMYYYY => dd ++ "-" ++ mm ++ "-" ++ yyyy
  | .DDMMYY => dd ++ "-" ++ mm ++ "-" ++ yy
  | .YYYYMMDD => yyyy ++ "-" ++ mm ++ "-" ++ dd

/-- The error thrown by parseDateString when the assembled date string does
not denote a valid Date (the only throwing path reachable with a
recognized format). -/
inductive DateError where
  | invalidDateString (dateStr : String)
deriving DecidableEq

/-- Decidable equality for Except results, used to evaluate parse outcomes
on concrete inputs. -/
instance {e a : Type} [DecidableEq e] [DecidableEq a] : DecidableEq (Except e a)
  | Except.ok x, Except.ok y =>
    if h : x = y then isTrue (h ▸ rfl) else isFalse (fun hh => h (Except.ok.inj hh))
  | Except.ok _, Except.error _ => isFalse (fun hh => Except.noConfusion hh)
  | Except.error _, Except.ok _ => isFalse (fun hh => Except.noConfusion hh)
  | Except.error x, Except.error y =>
    if h : x = y then isTrue (h ▸ rfl) else isFalse (fun hh => h (Except.error.inj hh))

/-- Translation of parseDateString from the source:
[part1, part2, part3] = dateStr.split("-") (missing positions are
undefined and stringify as "undefined"), the parts are assigned to
day/month/year per the format switch (with "20" prefixed to the year part
for the YY layouts), the string year-month-day is given to new Date, and
an invalid resulting Date throws. -/
def parseDateString (dateStr : String) (format : DateFormat) : Except DateError CalDate :=
  let parts := jsSplit '-' dateStr
  let part1 := parts[0]?
  let part2 := parts[1]?
  let part3 := parts[2]?
  let dmy : String × String × String :=
    match format with
    | .MMDDYYYY => (undefOr part2, undefOr part1, undefOr part3)
    | .MMDDYY => (undefOr part2, undefOr part1, "20" ++ undefOr part3)
    | .DDMMYYYY => (undefOr part1, undefOr part2, undefOr part3)
    | .DDMMYY => (undefOr part1, undefOr part2, "20" ++ undefOr part3)
    | .YYYYMMDD => (undefOr part3, undefOr part2, undefOr part1)
  let isoString := dmy.2.2 ++ "-" ++ dmy.2.1 ++ "-" ++ dmy.1
  match parseISODate isoString with
  | none => Except.error (DateError.invalidDateString dateStr)
  | some d => Except.ok d

/-- Translation of DateService.getFinancialYear from the source, with the
current date passed explicitly (the source reads it from the clock):
months from April onward span year to year + 1, earlier months span
year - 1 to year, rendered with the start year in full or truncated per
the fullYear flag and the end year always truncated to its last two
characters. -/
def getFinancialYear (today : CalDate) (fullYear : Bool) : String :=
  let year := today.year
  let month := today.month
  let se : Int × Int := if 4 ≤ month then (year, year + 1) else (year - 1, year)
  if fullYear then
    jsIntToString se.1 ++ "-" ++ sliceLast2 (jsIntToString se.2)
  else
    sliceLast2 (jsIntToString se.1) ++ "-" ++ sliceLast2 (jsIntToString se.2)

/-- Translation of DateService.getDaysInMonth from the source:
new Date(year, month, 0).getDate(). -/
def getDaysInMonth (year month : Int) : Int :=
  (jsMakeDate year month 0).day

/-- Translation of DateService.getAnyDate from the source:
formatDate(new Date(year, month - 1, day), format). -/
def getAnyDate (day month year : Int) (format : DateFormat) : String :=
  formatDate (jsMakeDate year (month - 1) day) format

/-- Translation of DateService.addDays from the source:
date = new Date(year, month - 1, day); date.setDate(date.getDate() +
daysToAdd); formatDate(date, format).  Setting the day-of-month field to
its current value plus n advances the time value by n days. -/
def addDays (day month year daysToAdd : Int) (format : DateFormat) : String :=
  formatDate (addDaysToDate (jsMakeDate year (month - 1) day) daysToAdd) format

/-- A JavaScript value as far as isValidDate can distinguish inputs: a
Date object (holding a day-granularity date, or none for an invalid Date
whose time value is NaN), or any non-Date value. -/
inductive JSValue where
  | date (t : Option CalDate)
  | str (s : String)
  | num (n : Int)
  | boolean (b : Bool)
  | nullValue
  | undefinedValue
deriving DecidableEq

/-- Translation of DateService.isValidDate from the source:
date instanceof Date && !isNaN(date.valueOf()). -/
def isValidDate (v : JSValue) : Bool :=
  match v with
  | .date t => t.isSome
  | _ => false

/-- Translation of DateService.areDatesValid from the source:
start = parseDateString(startDate, format), end = parseDateString(endDate,
format) (a throw from either parse propagates), then start < end, which on
Date objects compares the numeric time values. -/
def areDatesValid (startDate endDate : String) (format : DateFormat) : Except DateError Bool :=
  match parseDateString startDate format with
  | .error e => .error e
  | .ok s =>
    match parseDateString endDate format with
    | .error e => .error e
    | .ok e2 => .ok (decide (jsGetTime s < jsGetTime e2))

-- sanity checks on the source translations
example : formatDate ⟨2024, 5, 1⟩ .DDMMYYYY = "01-05-2024" := by decide
example : formatDate ⟨2024, 5, 1⟩ .YYYYMMDD = "2024-05-01" := by decide
example : formatDate ⟨2024, 5, 1⟩ .MMDDYY = "05-01-24" := by decide
example : parseDateString "31-12-2024" .DDMMYYYY = .ok ⟨2024, 12, 31⟩ := by decide
example : parseDateString "24-12-31" .YYYYMMDD ≠ .ok ⟨24, 12, 31⟩ := by decide
example : parseDateString "31-12-24" .DDMMYY = .ok ⟨2024, 12, 31⟩ := by decide
example : getFinancialYear ⟨2025, 3, 15⟩ false = "24-25" := by decide
example : getDaysInMonth 2024 2 = 29 := by decide
example : getDaysInMonth 2023 13 = 31 := by decide
example : getAnyDate 31 4 2024 .DDMMYYYY = "01-05-2024" := by decide
example : addDays 31 1 2024 1 .DDMMYYYY = "01-02-2024" := by decide
example : areDatesValid "01-01-2024" "02-01-2024" .DDMMYYYY = .ok true := by decide
example : areDatesValid "01-01-2024" "01-01-2024" .DDMMYYYY = .ok false := by decide
example : isValidDate (.str "01-01-2024") = false := by decide

/-- The truncated remainder vanishes exactly when the Euclidean remainder
does (both characterize divisibility). -/
theorem tmod_eq_zero_iff_emod (y n : Int) : y.tmod n = 0 ↔ y % n = 0 := by
  rw [← Int.dvd_iff_tmod_eq_zero, Int.dvd_iff_emod_eq_zero]

/-- Arithmetic characterization of the leap-year predicate. -/
theorem isLeapYear_iff (y : Int) :
    isLeapYear y = true ↔ (y % 4 = 0 ∧ (¬ y % 100 = 0 ∨ y % 400 = 0)) := by
  unfold isLeapYear
  simp only [Bool.or_eq_true, Bool.and_eq_true, beq_iff_eq, bne_iff_ne, ne_eq,
    tmod_eq_zero_iff_emod]
  omega

/-- C8: isLeapYear is a total Boolean predicate on the integers, true
exactly for years divisible by 4 and (not divisible by 100, or divisible
by 400); in particular true at 2000, 2024 and 1996 and false at 1900,
2023 and 2100. -/
theorem isLeapYear_characterization :
    (∀ y : Int, isLeapYear y = true ↔ (4 ∣ y ∧ (¬ (100 ∣ y) ∨ 400 ∣ y)))
    ∧ isLeapYear 2000 = true ∧ isLeapYear 2024 = true ∧ isLeapYear 1996 = true
    ∧ isLeapYear 1900 = false ∧ isLeapYear 2023 = false ∧ isLeapYear 2100 = false := by
  refine ⟨fun y => ?_, by decide, by decide, by decide, by decide, by decide, by decide⟩
  rw [isLeapYear_iff]
  rw [Int.dvd_iff_emod_eq_zero, Int.dvd_iff_emod_eq_zero, Int.dvd_iff_emod_eq_zero]

/-- C10: isValidDate is true exactly on Date instances whose time value is
not NaN; every non-Date input, including a well-formatted date string,
yields false (the function is total, so no input makes it throw). -/
theorem isValidDate_characterization :
    (∀ v : JSValue, isValidDate v = true ↔ ∃ t : CalDate, v = JSValue.date (some t))
    ∧ isValidDate (JSValue.str "01-01-2024") = false := by
  refine ⟨fun v => ?_, by decide⟩
  cases v with
  | date t => cases t <;> simp [isValidDate]
  | str s => simp [isValidDate]
  | num n => simp [isValidDate]
  | boolean b => simp [isValidDate]
  | nullValue => simp [isValidDate]
  | undefinedValue => simp [isValidDate]

/-- Rendering of a financial-year span: the start year in full or
truncated to its last two characters per the flag, the end year always
truncated, joined by a hyphen.  This mirrors the tail of
getFinancialYear and is the rendering the claim describes. -/
def fyRender (sy ey : Int) (fullYear : Bool) : String :=
  if fullYear then jsIntToString sy ++ "-" ++ sliceLast2 (jsIntToString ey)
  else sliceLast2 (jsIntToString sy) ++ "-" ++ sliceLast2 (jsIntToString ey)

/-- C6: the financial year spans the current year to the next when the
current month is at least April, and the previous year to the current one
otherwise, rendering the two years joined by a hyphen; for a current date
of 2025-03-15 this gives 24-25 (short) and 2024-25 (full), and for
2025-04-01 it gives 25-26 and 2025-26. -/
theorem getFinancialYear_span :
    (∀ (t : CalDate) (full : Bool),
      (4 ≤ t.month → getFinancialYear t full = fyRender t.year (t.year + 1) full)
      ∧ (t.month < 4 → getFinancialYear t full = fyRender (t.year - 1) t.year full))
    ∧ getFinancialYear ⟨2025, 3, 15⟩ false = "24-25"
    ∧ getFinancialYear ⟨2025, 3, 15⟩ true = "2024-25"
    ∧ getFinancialYear ⟨2025, 4, 1⟩ false = "25-26"
    ∧ getFinancialYear ⟨2025, 4, 1⟩ true = "2025-26" := by
  refine ⟨fun t full => ⟨fun h4 => ?_, fun h4 => ?_⟩, by decide, by decide, by decide, by decide⟩
  · simp [getFinancialYear, fyRender, h4]
  · have hn : ¬ 4 ≤ t.month := by omega
    simp [getFinancialYear, fyRender, hn]

/-- Witness instantiating the financial-year span theorem at the concrete
current date 2025-04-01. -/
theorem getFinancialYear_span_witness :
    4 ≤ (⟨2025, 4, 1⟩ : CalDate).month
    ∧ getFinancialYear ⟨2025, 4, 1⟩ false = fyRender 2025 (2025 + 1) false :=
  ⟨by decide, (getFinancialYear_span.1 ⟨2025, 4, 1⟩ false).1 (by decide)⟩

/-- Stepping one day back as signed day addition. -/
theorem addDaysToDate_neg_one (x : CalDate) : addDaysToDate x (-1) = prevDay x := by
  have h : ¬ (0 : Int) ≤ -1 := by norm_num
  rw [addDaysToDate, if_neg h]
  norm_num
  rfl

/-- Forward day stepping stays inside the month while the day bound
allows. -/
theorem addDaysFwd_within (y m : Int) :
    ∀ (k : Nat) (d : Int), 1 ≤ d → d + k ≤ daysInMonth y m →
      addDaysFwd ⟨y, m, d⟩ k = ⟨y, m, d + k⟩ := by
  intro k
  induction k with
  | zero => intro d _ _; simp [addDaysFwd]
  | succ n ih =>
    intro d hd hdk
    have hlt : d < daysInMonth y m := by
      have hcast : ((n + 1 : Nat) : Int) = (n : Int) + 1 := by push_cast; ring
      omega
    rw [addDaysFwd, nextDay]
    simp only [if_pos hlt]
    rw [ih (d + 1) (by omega) (by push_cast at hdk ⊢; omega)]
    congr 1
    push_cast
    ring

/-- The Date constructor is the identity on calendar-valid components
whose year is outside the two-digit band 0 to 99. -/
theorem jsMakeDate_valid (y m d : Int) (hv : validDate ⟨y, m, d⟩)
    (hy : ¬ (0 ≤ y ∧ y ≤ 99)) : jsMakeDate y (m - 1) d = ⟨y, m, d⟩ := by
  have hm1 : 1 ≤ m := hv.1
  have hm2 : m ≤ 12 := hv.2.1
  have hd1 : 1 ≤ d := hv.2.2.1
  have hd2 : d ≤ daysInMonth y m := hv.2.2.2
  have hyr : makeFullYear y = y := by rw [makeFullYear, if_neg hy]
  have hf : (m - 1).fdiv 12 = 0 := by
    rw [Int.fdiv_eq_ediv _ (by norm_num : (0 : Int) ≤ 12)]
    omega
  have hmm : (m - 1) % 12 = m - 1 := by omega
  simp only [jsMakeDate, hyr, hf, hmm, add_zero, sub_add_cancel]
  rw [addDaysToDate, if_pos (by omega : (0 : Int) ≤ d - 1)]
  rw [addDaysFwd_within y m (d - 1).toNat 1 (by norm_num) (by omega)]
  congr 1
  omega

/-- C1 (amended): constructing a date from explicit components never
fails; calendar-valid components (year outside the constructor band 0-99)
are rendered unchanged, while invalid components are silently normalized
by rollover instead of raising an error. -/
theorem getAnyDate_valid_components (y m d : Int) (s : DateFormat)
    (hv : validDate ⟨y, m, d⟩) (hy : ¬ (0 ≤ y ∧ y ≤ 99)) :
    getAnyDate d m y s = formatDate ⟨y, m, d⟩ s := by
  rw [getAnyDate, jsMakeDate_valid y m d hv hy]

/-- Witness instantiating the valid-component construction theorem at
April 30, 2024. -/
theorem getAnyDate_valid_components_witness :
    validDate ⟨2024, 4, 30⟩
    ∧ getAnyDate 30 4 2024 DateFormat.DDMMYYYY = formatDate ⟨2024, 4, 30⟩ DateFormat.DDMMYYYY :=
  ⟨by decide, getAnyDate_valid_components 2024 4 30 DateFormat.DDMMYYYY (by decide) (by decide)⟩

/-- C1 counterexample: the source does not fail on the invalid components
day 31 of April 2024; the constructor silently rolls them over to May 1,
2024, which getAnyDate formats as a normal string. -/
theorem getAnyDate_silently_normalizes :
    getAnyDate 31 4 2024 DateFormat.DDMMYYYY = "01-05-2024"
    ∧ jsMakeDate 2024 (4 - 1) 31 = ⟨2024, 5, 1⟩ := by
  exact ⟨by decide, by decide⟩

/-- Leap-year agreement across the 1900-year shift the Date constructor
applies to two-digit years 1 to 99 (excluding 0, where 1900 is not a leap
year but 0 is). -/
theorem isLeapYear_shift (y : Int) (h1 : 1 ≤ y) (h2 : y ≤ 99) :
    isLeapYear (1900 + y) = isLeapYear y := by
  have ha := isLeapYear_iff (1900 + y)
  have hb := isLeapYear_iff y
  cases hx : isLeapYear (1900 + y) <;> cases hy : isLeapYear y <;>
    rw [hx] at ha <;> rw [hy] at hb <;> simp at ha hb <;>
    first
      | rfl
      | omega

/-- Month lengths agree across the 1900-year shift for years 1 to 99. -/
theorem daysInMonth_shift (y m : Int) (h1 : 1 ≤ y) (h2 : y ≤ 99) :
    daysInMonth (1900 + y) m = daysInMonth y m := by
  simp only [daysInMonth, isLeapYear_shift y h1 h2]

/-- Evaluating getDaysInMonth on an in-range month: new Date(y, m, 0) is
day zero of the zero-based month m, that is the last day of the one-based
month m of the (constructor-adjusted) year. -/
theorem getDaysInMonth_eval (y m : Int) (h1 : 1 ≤ m) (h2 : m ≤ 12) :
    getDaysInMonth y m = daysInMonth (makeFullYear y) m := by
  rcases lt_or_eq_of_le h2 with h11 | h12
  · have hf : m.fdiv 12 = 0 := by
      rw [Int.fdiv_eq_ediv _ (by norm_num : (0 : Int) ≤ 12)]
      omega
    have hmm : m % 12 = m := by omega
    simp only [getDaysInMonth, jsMakeDate, hf, hmm, add_zero]
    rw [show (0 : Int) - 1 = -1 by norm_num, addDaysToDate_neg_one, prevDay]
    have hne : ¬ (1 : Int) < 1 := by norm_num
    simp only [hne, if_false, if_pos (show (1 : Int) < m + 1 by omega)]
    norm_num
  · subst h12
    have hf : (12 : Int).fdiv 12 = 1 := by decide
    have hmm : (12 : Int) % 12 = 0 := by decide
    simp only [getDaysInMonth, jsMakeDate, hf, hmm, zero_add]
    rw [show (0 : Int) - 1 = -1 by norm_num, addDaysToDate_neg_one, prevDay]
    norm_num [daysInMonth]

/-- C4 (amended): for months 1 to 12 and any nonzero year, getDaysInMonth
returns the day count of that month under the leap-year rule; for months
outside 1 to 12 it does not fail with an error but silently rolls the
month offset into adjacent years (counterexample theorem), and for year 0
the constructor's two-digit-year shift makes February report 28 rather
than 29. -/
theorem getDaysInMonth_in_range (y m : Int) (h1 : 1 ≤ m) (h2 : m ≤ 12)
    (hy : y ≠ 0) : getDaysInMonth y m = daysInMonth y m := by
  rw [getDaysInMonth_eval y m h1 h2, makeFullYear]
  by_cases hband : 0 ≤ y ∧ y ≤ 99
  · rw [if_pos hband, daysInMonth_shift y m (by omega) hband.2]
  · rw [if_neg hband]

/-- Witness instantiating the month-length theorem at the spec examples
February 2024, February 2023 and April 2023. -/
theorem getDaysInMonth_in_range_witness :
    getDaysInMonth 2024 2 = daysInMonth 2024 2
    ∧ getDaysInMonth 2023 2 = daysInMonth 2023 2
    ∧ getDaysInMonth 2023 4 = daysInMonth 2023 4
    ∧ daysInMonth 2024 2 = 29 ∧ daysInMonth 2023 2 = 28 ∧ daysInMonth 2023 4 = 30 :=
  ⟨getDaysInMonth_in_range 2024 2 (by decide) (by decide) (by decide),
   getDaysInMonth_in_range 2023 2 (by decide) (by decide) (by decide),
   getDaysInMonth_in_range 2023 4 (by decide) (by decide) (by decide),
   by decide, by decide, by decide⟩

/-- C4 counterexample: month 13 does not fail with an error; the
constructor rolls it over to January of the following year and the day
count 31 is returned; additionally year 0 is shifted to 1900, so February
of year 0 reports 28 although the leap rule gives 29. -/
theorem getDaysInMonth_out_of_range_no_error :
    getDaysInMonth 2023 13 = 31
    ∧ getDaysInMonth 2023 0 = 31
    ∧ getDaysInMonth 0 2 = 28 ∧ daysInMonth 0 2 = 29 := by
  exact ⟨by decide, by decide, by decide, by decide⟩

/-- C3 counterexample: a date string with a fourth part does not fail at
all; the destructuring of split takes the first three parts and the
trailing part is silently ignored, so the parse succeeds. -/
theorem parseDateString_fourth_part_ok :
    (parseDateString "01-01-2024-99" DateFormat.DDMMYYYY).isOk = true := by
  decide

/-- C3 (amended): the source has no distinct malformed-input error: parts
beyond the third are silently ignored (a four-part string parses as its
first three parts), while a missing part or a non-numeric part makes the
assembled year-month-day string denote an invalid Date, raising the same
single invalid-date error that calendar-invalid components raise. -/
theorem parseDateString_malformed_behavior :
    parseDateString "01-01-2024-99" DateFormat.DDMMYYYY = Except.ok ⟨2024, 1, 1⟩
    ∧ parseDateString "01-2024" DateFormat.DDMMYYYY
        = Except.error (DateError.invalidDateString "01-2024")
    ∧ parseDateString "aa-01-2024" DateFormat.DDMMYYYY
        = Except.error (DateError.invalidDateString "aa-01-2024")
    ∧ parseDateString "01-01" DateFormat.YYYYMMDD
        = Except.error (DateError.invalidDateString "01-01") := by
  exact ⟨by decide, by decide, by decide, by decide⟩

/-- Digit characters evaluate back to their digit value. -/
theorem dval_dchar (k : Nat) (h : k < 10) : dval (dchar k) = k := by
  interval_cases k <;> decide

/-- Digit characters pass the digit test. -/
theorem isDig_dchar (k : Nat) (h : k < 10) : isDig (dchar k) = true := by
  interval_cases k <;> decide

/-- Digit characters are not the hyphen separator. -/
theorem dchar_ne_dash (k : Nat) (h : k < 10) : dchar k ≠ '-' := by
  interval_cases k <;> decide

/-- The digit printer is insensitive to the amount of fuel, as long as the
fuel exceeds the number printed. -/
theorem natDigitsAux_fuel (n : Nat) :
    ∀ f g : Nat, n < f → n < g → natDigitsAux f n = natDigitsAux g n := by
  induction n using Nat.strong_induction_on with
  | _ n ih =>
    intro f g hf hg
    match f, g with
    | f + 1, g + 1 =>
      by_cases h10 : n < 10
      · simp only [natDigitsAux, if_pos h10]
      · have hpos : 0 < n := by omega
        have hdiv : n / 10 < n := Nat.div_lt_self hpos (by norm_num)
        simp only [natDigitsAux, if_neg h10]
        rw [ih (n / 10) hdiv f (n / 10 + 1) (by omega) (by omega),
            ih (n / 10) hdiv g (n / 10 + 1) (by omega) (by omega)]

/-- Unfolding equation for the digit printer. -/
theorem natDigits_eq (n : Nat) :
    natDigits n = if n < 10 then [dchar n] else natDigits (n / 10) ++ [dchar (n % 10)] := by
  by_cases h10 : n < 10
  · rw [if_pos h10]
    simp only [natDigits, natDigitsAux, if_pos h10]
  · rw [if_neg h10]
    have hpos : 0 < n := by omega
    have hdiv : n / 10 < n := Nat.div_lt_self hpos (by norm_num)
    show natDigitsAux (n + 1) n = natDigits (n / 10) ++ [dchar (n % 10)]
    rw [show natDigitsAux (n + 1) n = natDigitsAux n (n / 10) ++ [dchar (n % 10)] from by
      simp only [natDigitsAux, if_neg h10]]
    rw [natDigitsAux_fuel (n / 10) n (n / 10 + 1) (by omega) (by omega)]
    rfl

/-- Digits of a one-digit number. -/
theorem natDigits_one (n : Nat) (h : n < 10) : natDigits n = [dchar n] := by
  rw [natDigits_eq, if_pos h]

/-- Digits of a two-digit number. -/
theorem natDigits_two (n : Nat) (h1 : 10 ≤ n) (h2 : n ≤ 99) :
    natDigits n = [dchar (n / 10), dchar (n % 10)] := by
  rw [natDigits_eq, if_neg (by omega), natDigits_one (n / 10) (by omega)]
  rfl

/-- Digits of a three-digit number. -/
theorem natDigits_three (n : Nat) (h1 : 100 ≤ n) (h2 : n ≤ 999) :
    natDigits n = [dchar (n / 100), dchar (n / 10 % 10), dchar (n % 10)] := by
  rw [natDigits_eq, if_neg (by omega), natDigits_two (n / 10) (by omega) (by omega)]
  rw [Nat.div_div_eq_div_mul]
  rfl

/-- Digits of a four-digit number. -/
theorem natDigits_four (n : Nat) (h1 : 1000 ≤ n) (h2 : n ≤ 9999) :
    natDigits n = [dchar (n / 1000), dchar (n / 100 % 10), dchar (n / 10 % 10), dchar (n % 10)] := by
  rw [natDigits_eq, if_neg (by omega), natDigits_three (n / 10) (by omega) (by omega)]
  rw [Nat.div_div_eq_div_mul, Nat.div_div_eq_div_mul]
  rfl

/-- Two zero-padded digit characters of a number below 100. -/
def pad2chars (n : Nat) : List Char := [dchar (n / 10), dchar (n % 10)]

/-- Four digit characters of a number between 1000 and 9999. -/
def year4chars (n : Nat) : List Char :=
  [dchar (n / 1000), dchar (n / 100 % 10), dchar (n / 10 % 10), dchar (n % 10)]

/-- String() of a nonnegative integer prints its natural value. -/
theorem jsIntToString_nonneg (v : Int) (h : 0 ≤ v) :
    jsIntToString v = natStr v.toNat := by
  rw [jsIntToString, if_neg (by omega)]

/-- Zero-padding the decimal string of a number below 100 yields its two
zero-padded digits. -/
theorem padStartZeros_natStr (n : Nat) (h : n ≤ 99) :
    padStartZeros 2 (natStr n) = ⟨pad2chars n⟩ := by
  by_cases h10 : n < 10
  · show String.mk _ = _
    rw [show (natStr n).data = [dchar n] from congrArg String.data
      (congrArg String.mk (natDigits_one n h10))]
    have hd : n / 10 = 0 := by omega
    have hm : n % 10 = n := by omega
    simp [pad2chars, hd, hm, List.replicate]
    rfl
  · show String.mk _ = _
    rw [show (natStr n).data = [dchar (n / 10), dchar (n % 10)] from congrArg String.data
      (congrArg String.mk (natDigits_two n (by omega) h))]
    simp [pad2chars, List.replicate]

/-- The decimal string of a four-digit number. -/
theorem natStr_four (n : Nat) (h1 : 1000 ≤ n) (h2 : n ≤ 9999) :
    natStr n = ⟨year4chars n⟩ :=
  congrArg String.mk (natDigits_four n h1 h2)

/-- slice(-2) on a four-digit decimal string keeps the last two digits. -/
theorem sliceLast2_natStr_four (n : Nat) (h1 : 1000 ≤ n) (h2 : n ≤ 9999) :
    sliceLast2 (natStr n) = ⟨[dchar (n / 10 % 10), dchar (n % 10)]⟩ := by
  rw [natStr_four n h1 h2]
  rfl

/-- A separator-free character list splits into a single part. -/
theorem jsSplitChars_nosep (sep : Char) (a : List Char) (h : sep ∉ a) :
    jsSplitChars sep a = [a] := by
  induction a with
  | nil => rfl
  | cons c rest ih =>
    rw [List.mem_cons, not_or] at h
    have hc : ¬ c = sep := fun hh => h.1 hh.symm
    simp only [jsSplitChars, if_neg hc, ih h.2]

/-- Splitting peels off a leading separator-free part. -/
theorem jsSplitChars_sep_append (sep : Char) (a : List Char) (h : sep ∉ a) (rest : List Char) :
    jsSplitChars sep (a ++ sep :: rest) = a :: jsSplitChars sep rest := by
  induction a with
  | nil =>
    simp only [List.nil_append, jsSplitChars, if_pos rfl, if_true]
  | cons c a2 ih =>
    rw [List.mem_cons, not_or] at h
    have hc : ¬ c = sep := fun hh => h.1 hh.symm
    rw [List.cons_append]
    simp only [jsSplitChars, if_neg hc, ih h.2]

/-- Splitting a string assembled from three separator-free parts recovers
exactly those parts. -/
theorem jsSplit_three (a b c : List Char) (ha : '-' ∉ a) (hb : '-' ∉ b) (hc : '-' ∉ c) :
    jsSplit '-' ⟨a ++ ('-' :: (b ++ ('-' :: c)))⟩ = [⟨a⟩, ⟨b⟩, ⟨c⟩] := by
  have key : jsSplitChars '-' (a ++ ('-' :: (b ++ ('-' :: c)))) = [a, b, c] := by
    rw [jsSplitChars_sep_append '-' a ha, jsSplitChars_sep_append '-' b hb,
      jsSplitChars_nosep '-' c hc]
  unfold jsSplit
  rw [show (⟨a ++ ('-' :: (b ++ ('-' :: c)))⟩ : String).data
      = a ++ ('-' :: (b ++ ('-' :: c))) from rfl, key]
  rfl

/-- The hyphen is not among two padded digit characters. -/
theorem dash_not_mem_pad2 (n : Nat) (h : n ≤ 99) : '-' ∉ pad2chars n := by
  simp only [pad2chars, List.mem_cons, List.not_mem_nil, or_false, not_or]
  exact ⟨Ne.symm (dchar_ne_dash _ (by omega)), Ne.symm (dchar_ne_dash _ (by omega))⟩

/-- The hyphen is not among four year digit characters. -/
theorem dash_not_mem_year4 (n : Nat) (h : n ≤ 9999) : '-' ∉ year4chars n := by
  simp only [year4chars, List.mem_cons, List.not_mem_nil, or_false, not_or]
  exact ⟨Ne.symm (dchar_ne_dash _ (by omega)), Ne.symm (dchar_ne_dash _ (by omega)),
    Ne.symm (dchar_ne_dash _ (by omega)), Ne.symm (dchar_ne_dash _ (by omega))⟩

/-- Concatenating three one-part strings with hyphens at the string level
equals the corresponding character-level assembly. -/
theorem strmk_assemble (A B C : List Char) :
    (⟨A⟩ : String) ++ "-" ++ ⟨B⟩ ++ "-" ++ ⟨C⟩ = ⟨A ++ ('-' :: (B ++ ('-' :: C)))⟩ := by
  show String.mk ((((A ++ ['-']) ++ B) ++ ['-']) ++ C) = _
  apply congrArg
  simp

/-- Month lengths never exceed 31. -/
theorem daysInMonth_le31 (y m : Int) : daysInMonth y m ≤ 31 := by
  unfold daysInMonth
  split_ifs <;> omega

/-- Evaluation of the ISO date parser on a string assembled from a
four-digit year, two month digits and two day digits: it succeeds exactly
on calendar-valid components and returns them unchanged. -/
theorem parseISODate_digits (y m d : Nat) (hy1 : 1000 ≤ y) (hy2 : y ≤ 9999)
    (hm : m ≤ 99) (hd : d ≤ 99) :
    parseISODate ⟨year4chars y ++ ('-' :: (pad2chars m ++ ('-' :: pad2chars d)))⟩ =
      if validDate ⟨(y : Int), (m : Int), (d : Int)⟩
      then some ⟨(y : Int), (m : Int), (d : Int)⟩ else none := by
  have e1 : (year4chars y ++ ('-' :: (pad2chars m ++ ('-' :: pad2chars d))))
      = [dchar (y / 1000), dchar (y / 100 % 10), dchar (y / 10 % 10), dchar (y % 10), '-',
         dchar (m / 10), dchar (m % 10), '-', dchar (d / 10), dchar (d % 10)] := by
    simp [year4chars, pad2chars]
  rw [e1]
  simp only [parseISODate,
    isDig_dchar (y / 1000) (by omega), isDig_dchar (y / 100 % 10) (by omega),
    isDig_dchar (y / 10 % 10) (by omega), isDig_dchar (y % 10) (by omega),
    isDig_dchar (m / 10) (by omega), isDig_dchar (m % 10) (by omega),
    isDig_dchar (d / 10) (by omega), isDig_dchar (d % 10) (by omega),
    dval_dchar (y / 1000) (by omega), dval_dchar (y / 100 % 10) (by omega),
    dval_dchar (y / 10 % 10) (by omega), dval_dchar (y % 10) (by omega),
    dval_dchar (m / 10) (by omega), dval_dchar (m % 10) (by omega),
    dval_dchar (d / 10) (by omega), dval_dchar (d % 10) (by omega),
    and_true, true_and, and_self, if_true]
  have hyv : (((((y / 1000 : Nat) : Int) * 10 + ((y / 100 % 10 : Nat) : Int)) * 10
      + ((y / 10 % 10 : Nat) : Int)) * 10 + ((y % 10 : Nat) : Int)) = (y : Int) := by
    push_cast
    omega
  have hmv : ((m / 10 : Nat) : Int) * 10 + ((m % 10 : Nat) : Int) = (m : Int) := by
    push_cast
    omega
  have hdv : ((d / 10 : Nat) : Int) * 10 + ((d % 10 : Nat) : Int) = (d : Int) := by
    push_cast
    omega
  rw [hyv, hmv, hdv]
  exact if_congr Iff.rfl rfl rfl

/-- A leap year keeps its leapness when truncated to its last two digits
and re-expanded into the 2000s. -/
theorem isLeapYear_yy (y : Int) (hl : isLeapYear y = true) :
    isLeapYear (2000 + y % 100) = true := by
  rw [isLeapYear_iff] at hl ⊢
  omega

/-- Month lengths never shrink when the year is truncated to its last two
digits and re-expanded into the 2000s. -/
theorem daysInMonth_le_yy (y m : Int) :
    daysInMonth y m ≤ daysInMonth (2000 + y % 100) m := by
  have l2 : ∀ z : Int, daysInMonth z 2 = if isLeapYear z = true then 29 else 28 := by
    intro z
    unfold daysInMonth
    rw [if_pos rfl]
  by_cases hm : m = 2
  · subst hm
    rw [l2 y, l2 (2000 + y % 100)]
    rcases Bool.eq_false_or_eq_true (isLeapYear y) with hb | hb
    · rw [if_pos hb, if_pos (isLeapYear_yy y hb)]
    · rw [if_neg (by rw [hb]; exact Bool.false_ne_true)]
      split_ifs <;> omega
  · unfold daysInMonth
    split_ifs <;> omega

/-- Validity is preserved by the two-digit-year truncation and
re-expansion. -/
theorem validDate_yy (x : CalDate) (hv : validDate x) :
    validDate ⟨2000 + x.year % 100, x.month, x.day⟩ :=
  ⟨hv.1, hv.2.1, hv.2.2.1, le_trans hv.2.2.2 (daysInMonth_le_yy x.year x.month)⟩

/-- Prefixing 20 to the last two digits of a four-digit year yields the
four digit characters of 2000 plus the year modulo 100. -/
theorem yy_year_expand (yt : Nat) :
    "20" ++ (⟨[dchar (yt / 10 % 10), dchar (yt % 10)]⟩ : String)
      = ⟨year4chars (2000 + yt % 100)⟩ := by
  show String.mk ('2' :: '0' :: [dchar (yt / 10 % 10), dchar (yt % 10)]) = _
  apply congrArg
  unfold year4chars
  have e1 : (2000 + yt % 100) / 1000 = 2 := by omega
  have e2 : (2000 + yt % 100) / 100 % 10 = 0 := by omega
  have e3 : (2000 + yt % 100) / 10 % 10 = yt / 10 % 10 := by omega
  have e4 : (2000 + yt % 100) % 10 = yt % 10 := by omega
  rw [e1, e2, e3, e4]
  rfl

/-- Rendering a valid four-digit-year date and parsing it back under the
same format succeeds for every format, recovering the date itself for the
four-digit-year layouts and the date with year 2000 plus (year mod 100)
for the two-digit-year layouts. -/
theorem parseDateString_formatDate (x : CalDate) (hv : validDate x)
    (h1 : 1000 ≤ x.year) (h2 : x.year ≤ 9999) (fmt : DateFormat) :
    parseDateString (formatDate x fmt) fmt =
      Except.ok (if isYYFormat fmt = true
        then ⟨2000 + x.year % 100, x.month, x.day⟩ else x) := by
  have hd1 : 1 ≤ x.day := hv.2.2.1
  have hd31 : x.day ≤ 31 := le_trans hv.2.2.2 (daysInMonth_le31 _ _)
  have hm1 : 1 ≤ x.month := hv.1
  have hm12 : x.month ≤ 12 := hv.2.1
  have hy0 : (0 : Int) ≤ x.year := by omega
  have hyN1 : 1000 ≤ x.year.toNat := by omega
  have hyN2 : x.year.toNat ≤ 9999 := by omega
  have hmN : x.month.toNat ≤ 99 := by omega
  have hdN : x.day.toNat ≤ 99 := by omega
  have hcy : ((x.year.toNat : Int)) = x.year := Int.toNat_of_nonneg hy0
  have hcm : ((x.month.toNat : Int)) = x.month := Int.toNat_of_nonneg (by omega)
  have hcd : ((x.day.toNat : Int)) = x.day := Int.toNat_of_nonneg (by omega)
  have hxeq : (⟨(x.year.toNat : Int), (x.month.toNat : Int), (x.day.toNat : Int)⟩ : CalDate)
      = x := by
    rw [hcy, hcm, hcd]
  have hdd : padStartZeros 2 (jsIntToString x.day) = ⟨pad2chars x.day.toNat⟩ := by
    rw [jsIntToString_nonneg _ (by omega)]
    exact padStartZeros_natStr _ hdN
  have hmm2 : padStartZeros 2 (jsIntToString x.month) = ⟨pad2chars x.month.toNat⟩ := by
    rw [jsIntToString_nonneg _ (by omega)]
    exact padStartZeros_natStr _ hmN
  have hy4 : jsIntToString x.year = ⟨year4chars x.year.toNat⟩ := by
    rw [jsIntToString_nonneg _ hy0]
    exact natStr_four _ hyN1 hyN2
  have hyy : sliceLast2 (jsIntToString x.year)
      = ⟨[dchar (x.year.toNat / 10 % 10), dchar (x.year.toNat % 10)]⟩ := by
    rw [jsIntToString_nonneg _ hy0]
    exact sliceLast2_natStr_four _ hyN1 hyN2
  have hvn : validDate ⟨(x.year.toNat : Int), (x.month.toNat : Int), (x.day.toNat : Int)⟩ := by
    rw [hxeq]
    exact hv
  have hyyN1 : 1000 ≤ 2000 + x.year.toNat % 100 := by omega
  have hyyN2 : 2000 + x.year.toNat % 100 ≤ 9999 := by omega
  have hyycast : ((2000 + x.year.toNat % 100 : Nat) : Int) = 2000 + x.year % 100 := by omega
  have hxyy : (⟨((2000 + x.year.toNat % 100 : Nat) : Int), (x.month.toNat : Int),
      (x.day.toNat : Int)⟩ : CalDate) = ⟨2000 + x.year % 100, x.month, x.day⟩ := by
    rw [hyycast, hcm, hcd]
  have hvyy : validDate ⟨((2000 + x.year.toNat % 100 : Nat) : Int), (x.month.toNat : Int),
      (x.day.toNat : Int)⟩ := by
    rw [hxyy]
    exact validDate_yy x hv
  have hdashyy : '-' ∉ [dchar (x.year.toNat / 10 % 10), dchar (x.year.toNat % 10)] := by
    simp only [List.mem_cons, List.not_mem_nil, or_false, not_or]
    exact ⟨Ne.symm (dchar_ne_dash _ (by omega)), Ne.symm (dchar_ne_dash _ (by omega))⟩
  cases fmt with
  | DDMMYYYY =>
    have hfd : formatDate x DateFormat.DDMMYYYY
        = ⟨pad2chars x.day.toNat ++ ('-' :: (pad2chars x.month.toNat
            ++ ('-' :: year4chars x.year.toNat)))⟩ := by
      show padStartZeros 2 (jsIntToString x.day) ++ "-" ++ padStartZeros 2 (jsIntToString x.month)
          ++ "-" ++ jsIntToString x.year = _
      rw [hdd, hmm2, hy4, strmk_assemble]
    rw [hfd]
    simp only [parseDateString,
      jsSplit_three _ _ _ (dash_not_mem_pad2 _ hdN) (dash_not_mem_pad2 _ hmN)
        (dash_not_mem_year4 _ hyN2),
      List.getElem?_cons_zero, List.getElem?_cons_succ, undefOr, Option.getD_some]
    rw [strmk_assemble, parseISODate_digits _ _ _ hyN1 hyN2 hmN hdN, if_pos hvn, hxeq]
    simp [isYYFormat]
  | MMDDYYYY =>
    have hfd : formatDate x DateFormat.MMDDYYYY
        = ⟨pad2chars x.month.toNat ++ ('-' :: (pad2chars x.day.toNat
            ++ ('-' :: year4chars x.year.toNat)))⟩ := by
      show padStartZeros 2 (jsIntToString x.month) ++ "-" ++ padStartZeros 2 (jsIntToString x.day)
          ++ "-" ++ jsIntToString x.year = _
      rw [hdd, hmm2, hy4, strmk_assemble]
    rw [hfd]
    simp only [parseDateString,
      jsSplit_three _ _ _ (dash_not_mem_pad2 _ hmN) (dash_not_mem_pad2 _ hdN)
        (dash_not_mem_year4 _ hyN2),
      List.getElem?_cons_zero, List.getElem?_cons_succ, undefOr, Option.getD_some]
    rw [strmk_assemble, parseISODate_digits _ _ _ hyN1 hyN2 hmN hdN, if_pos hvn, hxeq]
    simp [isYYFormat]
  | YYYYMMDD =>
    have hfd : formatDate x DateFormat.YYYYMMDD
        = ⟨year4chars x.year.toNat ++ ('-' :: (pad2chars x.month.toNat
            ++ ('-' :: pad2chars x.day.toNat)))⟩ := by
      show jsIntToString x.year ++ "-" ++ padStartZeros 2 (jsIntToString x.month)
          ++ "-" ++ padStartZeros 2 (jsIntToString x.day) = _
      rw [hdd, hmm2, hy4, strmk_assemble]
    rw [hfd]
    simp only [parseDateString,
      jsSplit_three _ _ _ (dash_not_mem_year4 _ hyN2) (dash_not_mem_pad2 _ hmN)
        (dash_not_mem_pad2 _ hdN),
      List.getElem?_cons_zero, List.getElem?_cons_succ, undefOr, Option.getD_some]
    rw [strmk_assemble, parseISODate_digits _ _ _ hyN1 hyN2 hmN hdN, if_pos hvn, hxeq]
    simp [isYYFormat]
  | DDMMYY =>
    have hfd : formatDate x DateFormat.DDMMYY
        = ⟨pad2chars x.day.toNat ++ ('-' :: (pad2chars x.month.toNat
            ++ ('-' :: [dchar (x.year.toNat / 10 % 10), dchar (x.year.toNat % 10)])))⟩ := by
      show padStartZeros 2 (jsIntToString x.day) ++ "-" ++ padStartZeros 2 (jsIntToString x.month)
          ++ "-" ++ sliceLast2 (jsIntToString x.year) = _
      rw [hdd, hmm2, hyy, strmk_assemble]
    rw [hfd]
    simp only [parseDateString,
      jsSplit_three _ _ _ (dash_not_mem_pad2 _ hdN) (dash_not_mem_pad2 _ hmN) hdashyy,
      List.getElem?_cons_zero, List.getElem?_cons_succ, undefOr, Option.getD_some]
    rw [yy_year_expand x.year.toNat, strmk_assemble,
      parseISODate_digits _ _ _ hyyN1 hyyN2 hmN hdN, if_pos hvyy, hxyy]
    simp [isYYFormat]
  | MMDDYY =>
    have hfd : formatDate x DateFormat.MMDDYY
        = ⟨pad2chars x.month.toNat ++ ('-' :: (pad2chars x.day.toNat
            ++ ('-' :: [dchar (x.year.toNat / 10 % 10), dchar (x.year.toNat % 10)])))⟩ := by
      show padStartZeros 2 (jsIntToString x.month) ++ "-" ++ padStartZeros 2 (jsIntToString x.day)
          ++ "-" ++ sliceLast2 (jsIntToString x.year) = _
      rw [hdd, hmm2, hyy, strmk_assemble]
    rw [hfd]
    simp only [parseDateString,
      jsSplit_three _ _ _ (dash_not_mem_pad2 _ hmN) (dash_not_mem_pad2 _ hdN) hdashyy,
      List.getElem?_cons_zero, List.getElem?_cons_succ, undefOr, Option.getD_some]
    rw [yy_year_expand x.year.toNat, strmk_assemble,
      parseISODate_digits _ _ _ hyyN1 hyyN2 hmN hdN, if_pos hvyy, hxyy]
    simp [isYYFormat]

/-- C2: on valid dates with four-digit years (1000-9999, the domain where
the rendered year is the ISO-conforming four-digit form; outside it the
rendered string is not in the ECMAScript-specified parse format), the
round trip parse(render(d, s), s) returns d for every format, except that
for the *-YY layouts with year outside [2000, 2099] the round trip
diverges from d (it yields the date with year 2000 + (year mod 100)). -/
theorem parse_render_roundtrip (x : CalDate) (hv : validDate x)
    (h1 : 1000 ≤ x.year) (h2 : x.year ≤ 9999) (fmt : DateFormat) :
    ((isYYFormat fmt = false ∨ (2000 ≤ x.year ∧ x.year ≤ 2099)) →
      parseDateString (formatDate x fmt) fmt = Except.ok x)
    ∧ (isYYFormat fmt = true → (x.year < 2000 ∨ 2099 < x.year) →
      parseDateString (formatDate x fmt) fmt ≠ Except.ok x) := by
  constructor
  · intro hc
    rw [parseDateString_formatDate x hv h1 h2 fmt]
    rcases hc with hf | hy
    · rw [hf]
      simp
    · cases hb : isYYFormat fmt
      · simp
      · have hsame : 2000 + x.year % 100 = x.year := by omega
        rw [if_pos rfl, hsame]
  · intro hf hrange
    rw [parseDateString_formatDate x hv h1 h2 fmt, hf, if_pos rfl]
    intro hcontra
    have hinj := Except.ok.inj hcontra
    have hyear : 2000 + x.year % 100 = x.year := congrArg CalDate.year hinj
    omega

/-- Witness instantiating the round-trip theorem: the identity round trip
at 2024-12-31 under DD-MM-YYYY, and the asserted divergence at 1999-12-31
under the lossy DD-MM-YY layout. -/
theorem parse_render_roundtrip_witness :
    parseDateString (formatDate ⟨2024, 12, 31⟩ DateFormat.DDMMYYYY) DateFormat.DDMMYYYY
        = Except.ok ⟨2024, 12, 31⟩
    ∧ parseDateString (formatDate ⟨1999, 12, 31⟩ DateFormat.DDMMYY) DateFormat.DDMMYY
        ≠ Except.ok ⟨1999, 12, 31⟩ :=
  ⟨(parse_render_roundtrip ⟨2024, 12, 31⟩ (by decide) (by decide) (by decide)
      DateFormat.DDMMYYYY).1 (Or.inl (by decide)),
   (parse_render_roundtrip ⟨1999, 12, 31⟩ (by decide) (by decide) (by decide)
      DateFormat.DDMMYY).2 (by decide) (by decide)⟩

/-- Rendering as the specification words it: day and month zero-padded to
two digits, the year emitted as four digits for the *-YYYY layouts and as
its last two digits zero-padded for the *-YY layouts. -/
def specRender (date : CalDate) (format : DateFormat) : String :=
  let dd := padStartZeros 2 (jsIntToString date.day)
  let mm := padStartZeros 2 (jsIntToString date.month)
  let y4 := padStartZeros 4 (jsIntToString date.year)
  let y2 := padStartZeros 2 (jsIntToString (date.year % 100))
  match format with
  | .MMDDYYYY => mm ++ "-" ++ dd ++ "-" ++ y4
  | .MMDDYY => mm ++ "-" ++ dd ++ "-" ++ y2
  | .DDMMYYYY => dd ++ "-" ++ mm ++ "-" ++ y4
  | .DDMMYY => dd ++ "-" ++ mm ++ "-" ++ y2
  | .YYYYMMDD => y4 ++ "-" ++ mm ++ "-" ++ dd

/-- C5 (amended): for valid dates whose year has four digits (1000-9999),
render produces exactly the token-ordered, zero-padded string of the
specification for each of the five layouts; outside that year range the
year token is emitted as the bare decimal string (for *-YYYY) or its
unpadded last-two-characters slice (for *-YY), diverging from the
specification wording (counterexample theorem). -/
theorem formatDate_matches_specRender (x : CalDate) (_hv : validDate x)
    (h1 : 1000 ≤ x.year) (h2 : x.year ≤ 9999) (fmt : DateFormat) :
    formatDate x fmt = specRender x fmt := by
  have hy0 : (0 : Int) ≤ x.year := by omega
  have hyN1 : 1000 ≤ x.year.toNat := by omega
  have hyN2 : x.year.toNat ≤ 9999 := by omega
  have hy4pad : padStartZeros 4 (jsIntToString x.year) = jsIntToString x.year := by
    rw [jsIntToString_nonneg _ hy0, natStr_four _ hyN1 hyN2]
    rfl
  have hyy : sliceLast2 (jsIntToString x.year)
      = ⟨[dchar (x.year.toNat / 10 % 10), dchar (x.year.toNat % 10)]⟩ := by
    rw [jsIntToString_nonneg _ hy0]
    exact sliceLast2_natStr_four _ hyN1 hyN2
  have hy2pad : padStartZeros 2 (jsIntToString (x.year % 100))
      = sliceLast2 (jsIntToString x.year) := by
    rw [hyy, jsIntToString_nonneg _ (by omega), padStartZeros_natStr _ (by omega)]
    apply congrArg
    unfold pad2chars
    have e1 : (x.year % 100).toNat / 10 = x.year.toNat / 10 % 10 := by omega
    have e2 : (x.year % 100).toNat % 10 = x.year.toNat % 10 := by omega
    rw [e1, e2]
  cases fmt <;> simp only [formatDate, specRender] <;> first
    | rw [hy4pad]
    | rw [hy2pad]

/-- Witness instantiating the render-shape theorem at March 7, 2024 for a
two-digit-year layout, together with the concrete rendered string. -/
theorem formatDate_matches_specRender_witness :
    formatDate ⟨2024, 3, 7⟩ DateFormat.MMDDYY = specRender ⟨2024, 3, 7⟩ DateFormat.MMDDYY
    ∧ formatDate ⟨2024, 3, 7⟩ DateFormat.MMDDYY = "03-07-24" :=
  ⟨formatDate_matches_specRender ⟨2024, 3, 7⟩ (by decide) (by decide) (by decide)
      DateFormat.MMDDYY,
   by decide⟩

/-- C5 counterexample: for the valid date January 1 of year 5, the *-YY
render emits the year as the single character 5 rather than the
zero-padded 05 the claim requires, and for year 500 the *-YYYY render
emits three digits rather than four. -/
theorem formatDate_year_not_padded :
    validDate ⟨5, 1, 1⟩
    ∧ formatDate ⟨5, 1, 1⟩ DateFormat.DDMMYY = "01-01-5"
    ∧ formatDate ⟨5, 1, 1⟩ DateFormat.DDMMYY ≠ "01-01-05"
    ∧ validDate ⟨500, 5, 5⟩
    ∧ formatDate ⟨500, 5, 5⟩ DateFormat.YYYYMMDD = "500-05-05" := by
  exact ⟨by decide, by decide, by decide, by decide, by decide⟩

/-- A date string assembled from numeric parts with the widths the
format's tokens prescribe: two digits for day and month, four digits for
a YYYY year and two for a YY year, in the format's token order. -/
def componentString (fmt : DateFormat) (y m d : Nat) : String :=
  match fmt with
  | .MMDDYYYY => (⟨pad2chars m⟩ : String) ++ "-" ++ ⟨pad2chars d⟩ ++ "-" ++ ⟨year4chars y⟩
  | .MMDDYY => (⟨pad2chars m⟩ : String) ++ "-" ++ ⟨pad2chars d⟩ ++ "-" ++ ⟨pad2chars y⟩
  | .DDMMYYYY => (⟨pad2chars d⟩ : String) ++ "-" ++ ⟨pad2chars m⟩ ++ "-" ++ ⟨year4chars y⟩
  | .DDMMYY => (⟨pad2chars d⟩ : String) ++ "-" ++ ⟨pad2chars m⟩ ++ "-" ++ ⟨pad2chars y⟩
  | .YYYYMMDD => (⟨year4chars y⟩ : String) ++ "-" ++ ⟨pad2chars m⟩ ++ "-" ++ ⟨pad2chars d⟩

/-- Prefixing 20 to a two-digit part yields the four digit characters of
the year 2000 plus that part. -/
theorem yy_prefix_expand (y : Nat) (h : y ≤ 99) :
    "20" ++ (⟨pad2chars y⟩ : String) = ⟨year4chars (2000 + y)⟩ := by
  show String.mk ('2' :: '0' :: pad2chars y) = _
  apply congrArg
  unfold year4chars pad2chars
  have e1 : (2000 + y) / 1000 = 2 := by omega
  have e2 : (2000 + y) / 100 % 10 = 0 := by omega
  have e3 : (2000 + y) / 10 % 10 = y / 10 := by omega
  have e4 : (2000 + y) % 10 = y % 10 := by omega
  rw [e1, e2, e3, e4]
  rfl

/-- C7: a parse input whose numeric parts do not form a calendar-valid
date fails with the invalid-date error: stated generally for component
strings of the token widths of every format (with the YY year expanding
to 2000 plus the part), and concretely for the two spec examples
31-02-2024 under DD-MM-YYYY and 13-13-2024 under MM-DD-YYYY. -/
theorem parseDateString_rejects_invalid :
    (∀ (fmt : DateFormat) (y m d : Nat), isYYFormat fmt = false →
      1000 ≤ y → y ≤ 9999 → m ≤ 99 → d ≤ 99 →
      ¬ validDate ⟨(y : Int), (m : Int), (d : Int)⟩ →
      parseDateString (componentString fmt y m d) fmt
        = Except.error (DateError.invalidDateString (componentString fmt y m d)))
    ∧ (∀ (fmt : DateFormat) (y m d : Nat), isYYFormat fmt = true →
      y ≤ 99 → m ≤ 99 → d ≤ 99 →
      ¬ validDate ⟨((2000 + y : Nat) : Int), (m : Int), (d : Int)⟩ →
      parseDateString (componentString fmt y m d) fmt
        = Except.error (DateError.invalidDateString (componentString fmt y m d)))
    ∧ parseDateString "31-02-2024" DateFormat.DDMMYYYY
        = Except.error (DateError.invalidDateString "31-02-2024")
    ∧ parseDateString "13-13-2024" DateFormat.MMDDYYYY
        = Except.error (DateError.invalidDateString "13-13-2024") := by
  refine ⟨?_, ?_, by decide, by decide⟩
  · intro fmt y m d hf h1 h2 hm hd hinv
    cases fmt with
    | MMDDYY => exact absurd hf (by decide)
    | DDMMYY => exact absurd hf (by decide)
    | DDMMYYYY =>
      rw [show componentString DateFormat.DDMMYYYY y m d
        = ⟨pad2chars d ++ ('-' :: (pad2chars m ++ ('-' :: year4chars y)))⟩ from
        strmk_assemble _ _ _]
      simp only [parseDateString,
        jsSplit_three _ _ _ (dash_not_mem_pad2 _ hd) (dash_not_mem_pad2 _ hm)
          (dash_not_mem_year4 _ h2),
        List.getElem?_cons_zero, List.getElem?_cons_succ, undefOr, Option.getD_some]
      rw [strmk_assemble, parseISODate_digits _ _ _ h1 h2 hm hd, if_neg hinv]
    | MMDDYYYY =>
      rw [show componentString DateFormat.MMDDYYYY y m d
        = ⟨pad2chars m ++ ('-' :: (pad2chars d ++ ('-' :: year4chars y)))⟩ from
        strmk_assemble _ _ _]
      simp only [parseDateString,
        jsSplit_three _ _ _ (dash_not_mem_pad2 _ hm) (dash_not_mem_pad2 _ hd)
          (dash_not_mem_year4 _ h2),
        List.getElem?_cons_zero, List.getElem?_cons_succ, undefOr, Option.getD_some]
      rw [strmk_assemble, parseISODate_digits _ _ _ h1 h2 hm hd, if_neg hinv]
    | YYYYMMDD =>
      rw [show componentString DateFormat.YYYYMMDD y m d
        = ⟨year4chars y ++ ('-' :: (pad2chars m ++ ('-' :: pad2chars d)))⟩ from
        strmk_assemble _ _ _]
      simp only [parseDateString,
        jsSplit_three _ _ _ (dash_not_mem_year4 _ h2) (dash_not_mem_pad2 _ hm)
          (dash_not_mem_pad2 _ hd),
        List.getElem?_cons_zero, List.getElem?_cons_succ, undefOr, Option.getD_some]
      rw [strmk_assemble, parseISODate_digits _ _ _ h1 h2 hm hd, if_neg hinv]
  · intro fmt y m d hf hy hm hd hinv
    cases fmt with
    | MMDDYYYY => exact absurd hf (by decide)
    | DDMMYYYY => exact absurd hf (by decide)
    | YYYYMMDD => exact absurd hf (by decide)
    | DDMMYY =>
      rw [show componentString DateFormat.DDMMYY y m d
        = ⟨pad2chars d ++ ('-' :: (pad2chars m ++ ('-' :: pad2chars y)))⟩ from
        strmk_assemble _ _ _]
      simp only [parseDateString,
        jsSplit_three _ _ _ (dash_not_mem_pad2 _ hd) (dash_not_mem_pad2 _ hm)
          (dash_not_mem_pad2 _ hy),
        List.getElem?_cons_zero, List.getElem?_cons_succ, undefOr, Option.getD_some]
      rw [yy_prefix_expand y hy, strmk_assemble,
        parseISODate_digits _ _ _ (by omega) (by omega) hm hd, if_neg hinv]
    | MMDDYY =>
      rw [show componentString DateFormat.MMDDYY y m d
        = ⟨pad2chars m ++ ('-' :: (pad2chars d ++ ('-' :: pad2chars y)))⟩ from
        strmk_assemble _ _ _]
      simp only [parseDateString,
        jsSplit_three _ _ _ (dash_not_mem_pad2 _ hm) (dash_not_mem_pad2 _ hd)
          (dash_not_mem_pad2 _ hy),
        List.getElem?_cons_zero, List.getElem?_cons_succ, undefOr, Option.getD_some]
      rw [yy_prefix_expand y hy, strmk_assemble,
        parseISODate_digits _ _ _ (by omega) (by omega) hm hd, if_neg hinv]

/-- Witness instantiating the invalid-component theorem at the spec
example 31-02-2024 under DD-MM-YYYY (February 31 does not exist). -/
theorem parseDateString_rejects_invalid_witness :
    componentString DateFormat.DDMMYYYY 2024 2 31 = "31-02-2024"
    ∧ parseDateString (componentString DateFormat.DDMMYYYY 2024 2 31) DateFormat.DDMMYYYY
        = Except.error (DateError.invalidDateString (componentString DateFormat.DDMMYYYY 2024 2 31)) :=
  ⟨by decide,
   parseDateString_rejects_invalid.1 DateFormat.DDMMYYYY 2024 2 31 (by decide) (by decide)
     (by decide) (by decide) (by decide) (by decide)⟩

/-- Strict precedence in the (year, month, day) lexicographic order, the
total order the specification puts on calendar dates. -/
def lexLt (a b : CalDate) : Prop :=
  a.year < b.year
  ∨ (a.year = b.year ∧ (a.month < b.month ∨ (a.month = b.month ∧ a.day < b.day)))

instance (a b : CalDate) : Decidable (lexLt a b) := by
  unfold lexLt
  infer_instance

/-- The leap-year count increments exactly at leap years. -/
theorem leapCount_succ (y : Int) :
    leapCount y - leapCount (y - 1) = if isLeapYear y = true then 1 else 0 := by
  unfold leapCount
  rw [Int.fdiv_eq_ediv y (by norm_num : (0 : Int) ≤ 4),
    Int.fdiv_eq_ediv y (by norm_num : (0 : Int) ≤ 100),
    Int.fdiv_eq_ediv y (by norm_num : (0 : Int) ≤ 400),
    Int.fdiv_eq_ediv (y - 1) (by norm_num : (0 : Int) ≤ 4),
    Int.fdiv_eq_ediv (y - 1) (by norm_num : (0 : Int) ≤ 100),
    Int.fdiv_eq_ediv (y - 1) (by norm_num : (0 : Int) ≤ 400)]
  have hiff := isLeapYear_iff y
  by_cases hb : isLeapYear y = true
  · rw [if_pos hb]
    have h := hiff.mp hb
    omega
  · rw [if_neg hb]
    have h : ¬ (y % 4 = 0 ∧ (¬ y % 100 = 0 ∨ y % 400 = 0)) := fun hc => hb (hiff.mpr hc)
    omega

/-- Month lengths are nonnegative. -/
theorem daysInMonth_nonneg (y m : Int) : 0 ≤ daysInMonth y m := by
  unfold daysInMonth
  split_ifs <;> omega

/-- The cumulative days before a month grow by the month length. -/
theorem daysBeforeMonth_succ (y m : Int) (h1 : 1 ≤ m) (h2 : m ≤ 11) :
    daysBeforeMonth y (m + 1) = daysBeforeMonth y m + daysInMonth y m := by
  interval_cases m <;>
    norm_num [daysBeforeMonth, monthOffset, daysInMonth] <;>
    split_ifs <;> omega

/-- The cumulative days before a month are monotone in the month. -/
theorem daysBeforeMonth_mono (y m1 m2 : Int) (h1 : 1 ≤ m1) (h12 : m1 ≤ m2) (h2 : m2 ≤ 12) :
    daysBeforeMonth y m1 ≤ daysBeforeMonth y m2 := by
  have key : ∀ (k : Nat) (m : Int), 1 ≤ m → m + k ≤ 12 →
      daysBeforeMonth y m ≤ daysBeforeMonth y (m + k) := by
    intro k
    induction k with
    | zero => intro m hm hmk; simp
    | succ n ih =>
      intro m hm hmk
      have hcast : ((n + 1 : Nat) : Int) = (n : Int) + 1 := by push_cast; ring
      rw [hcast]
      have hnk : m + ((n : Nat) : Int) + 1 ≤ 12 := by rw [hcast] at hmk; omega
      have hstep := daysBeforeMonth_succ y (m + n) (by omega) (by omega)
      have hd := daysInMonth_nonneg y (m + n)
      have hih := ih m hm (by omega)
      have hassoc : m + ((n : Nat) : Int) + 1 = m + (((n : Nat) : Int) + 1) := by ring
      rw [← hassoc, hstep]
      omega
  have he : m1 + (((m2 - m1).toNat : Nat) : Int) = m2 := by omega
  have hfin := key (m2 - m1).toNat m1 h1 (by omega)
  rw [he] at hfin
  exact hfin

/-- The ordinal of a valid day within its year lies between 1 and the
length of that year. -/
theorem dayOfYear_bounds (x : CalDate) (hv : validDate x) :
    1 ≤ dayOfYear x ∧ dayOfYear x ≤ 365 + (if isLeapYear x.year = true then 1 else 0) := by
  obtain ⟨y, m, d⟩ := x
  have h1 : 1 ≤ m := hv.1
  have h2 : m ≤ 12 := hv.2.1
  have h3 : 1 ≤ d := hv.2.2.1
  have h4 : d ≤ daysInMonth y m := hv.2.2.2
  show 1 ≤ daysBeforeMonth y m + d ∧ daysBeforeMonth y m + d ≤ _
  interval_cases m <;>
    norm_num [daysBeforeMonth, monthOffset, daysInMonth] at h4 ⊢ <;>
    split_ifs <;>
    omega

/-- The day number of January 1. -/
theorem dayNumber_jan1 (y : Int) :
    dayNumber ⟨y, 1, 1⟩ = 365 * y + leapCount (y - 1) + 1 := by
  show 365 * y + leapCount (y - 1) + (daysBeforeMonth y 1 + 1) = _
  norm_num [daysBeforeMonth, monthOffset]

/-- The day number is strictly monotone with respect to the lexicographic
order on valid dates. -/
theorem dayNumber_lt (a b : CalDate) (hva : validDate a) (hvb : validDate b)
    (hlex : lexLt a b) : dayNumber a < dayNumber b := by
  have hdoya := dayOfYear_bounds a hva
  have hdoyb := dayOfYear_bounds b hvb
  rcases hlex with hy | ⟨hy, hrest⟩
  · -- strictly later year
    have hla := leapCount_succ a.year
    have hstep1 : dayNumber a < 365 * (a.year + 1) + leapCount a.year + 1 := by
      unfold dayNumber
      split_ifs at hla hdoya <;> omega
    have hstep2 : 365 * (a.year + 1) + leapCount a.year + 1 ≤ dayNumber ⟨b.year, 1, 1⟩ := by
      rw [dayNumber_jan1]
      have key : ∀ (k : Nat) (z : Int),
          365 * z + leapCount (z - 1) ≤ 365 * (z + k) + leapCount (z + k - 1) := by
        intro k
        induction k with
        | zero => intro z; simp
        | succ n ih =>
          intro z
          have hcast : ((n + 1 : Nat) : Int) = (n : Int) + 1 := by push_cast; ring
          rw [hcast]
          have hg : z + (((n : Nat) : Int) + 1) - 1 = z + (n : Nat) := by ring
          rw [hg]
          have hih := ih z
          have hl := leapCount_succ (z + (n : Nat))
          split_ifs at hl <;> omega
      have he : a.year + 1 + ((b.year - (a.year + 1)).toNat : Int) = b.year := by omega
      have hfin := key (b.year - (a.year + 1)).toNat (a.year + 1)
      rw [he] at hfin
      have hnorm : a.year + 1 - 1 = a.year := by ring
      rw [hnorm] at hfin
      omega
    have hstep3 : dayNumber ⟨b.year, 1, 1⟩ ≤ dayNumber b := by
      rw [dayNumber_jan1]
      unfold dayNumber
      have := hdoyb.1
      omega
    omega
  · rcases hrest with hm | ⟨hm, hd⟩
    · -- same year, strictly later month
      have hsucc := daysBeforeMonth_succ a.year a.month hva.1 (by have := hvb.2.1; omega)
      have hmono := daysBeforeMonth_mono a.year (a.month + 1) b.month (by have := hva.1; omega)
        (by omega) hvb.2.1
      have hda := hva.2.2.2
      have hdb := hvb.2.2.1
      unfold dayNumber dayOfYear
      rw [hy] at hsucc hmono hda ⊢
      omega
    · -- same year and month, strictly later day
      unfold dayNumber dayOfYear
      rw [hy, hm]
      omega

/-- On valid dates the day-number order coincides with the lexicographic
(year, month, day) order. -/
theorem dayNumber_lt_iff (a b : CalDate) (hva : validDate a) (hvb : validDate b) :
    dayNumber a < dayNumber b ↔ lexLt a b := by
  constructor
  · intro h
    by_contra hn
    have hcase : lexLt b a ∨ (b.year = a.year ∧ b.month = a.month ∧ b.day ≤ a.day) := by
      unfold lexLt at hn ⊢
      omega
    rcases hcase with hl | ⟨he1, he2, he3⟩
    · have := dayNumber_lt b a hvb hva hl
      omega
    · have hle : dayNumber b ≤ dayNumber a := by
        unfold dayNumber dayOfYear
        rw [he1, he2]
        omega
      omega
  · exact dayNumber_lt a b hva hvb

/-- Time values compare the same way as day numbers. -/
theorem jsGetTime_lt_iff (a b : CalDate) :
    jsGetTime a < jsGetTime b ↔ dayNumber a < dayNumber b := by
  unfold jsGetTime
  omega

/-- The ISO parser only returns calendar-valid dates. -/
theorem parseISODate_valid (s : String) (d : CalDate) (h : parseISODate s = some d) :
    validDate d := by
  unfold parseISODate at h
  split at h
  · split at h
    · dsimp only at h
      split at h
      · rename_i hcond
        injection h with h2
        rw [← h2]
        exact hcond
      · cases h
    · cases h
  · cases h

/-- parseDateString only returns calendar-valid dates. -/
theorem parseDateString_valid (s : String) (fmt : DateFormat) (d : CalDate)
    (h : parseDateString s fmt = Except.ok d) : validDate d := by
  unfold parseDateString at h
  cases fmt <;>
    (dsimp only at h
     split at h
     · cases h
     · rename_i d2 heq
       injection h with h2
       rw [← h2]
       exact parseISODate_valid _ _ heq)

/-- C9: areDatesValid parses both strings under the given format and
returns true exactly when the first date strictly precedes the second in
the (year, month, day) lexicographic order (the time-value comparison of
the two parsed Dates); it returns false on two strings denoting the same
date, and a parse failure of either string propagates to the caller. -/
theorem areDatesValid_characterization (s1 s2 : String) (fmt : DateFormat) :
    (∀ a b : CalDate, parseDateString s1 fmt = Except.ok a →
        parseDateString s2 fmt = Except.ok b →
        (areDatesValid s1 s2 fmt = Except.ok true ↔ lexLt a b)
        ∧ (a = b → areDatesValid s1 s2 fmt = Except.ok false))
    ∧ (∀ e, parseDateString s1 fmt = Except.error e →
        areDatesValid s1 s2 fmt = Except.error e)
    ∧ (∀ a e, parseDateString s1 fmt = Except.ok a →
        parseDateString s2 fmt = Except.error e →
        areDatesValid s1 s2 fmt = Except.error e) := by
  refine ⟨fun a b h1 h2 => ?_, fun e h1 => ?_, fun a e h1 h2 => ?_⟩
  · have hva := parseDateString_valid s1 fmt a h1
    have hvb := parseDateString_valid s2 fmt b h2
    have harea : areDatesValid s1 s2 fmt
        = Except.ok (decide (jsGetTime a < jsGetTime b)) := by
      unfold areDatesValid
      rw [h1, h2]
    constructor
    · rw [harea]
      constructor
      · intro hok
        have hd : decide (jsGetTime a < jsGetTime b) = true := Except.ok.inj hok
        rw [decide_eq_true_eq] at hd
        exact (dayNumber_lt_iff a b hva hvb).mp ((jsGetTime_lt_iff a b).mp hd)
      · intro hlex
        have hlt : jsGetTime a < jsGetTime b :=
          (jsGetTime_lt_iff a b).mpr ((dayNumber_lt_iff a b hva hvb).mpr hlex)
        rw [decide_eq_true hlt]
    · intro hab
      subst hab
      rw [harea, decide_eq_false (lt_irrefl (jsGetTime a))]
  · unfold areDatesValid
    rw [h1]
  · unfold areDatesValid
    rw [h1, h2]

/-- Witness instantiating the comparison theorem at the spec examples:
01-01-2024 strictly precedes 02-01-2024 under DD-MM-YYYY, and two equal
date strings compare false. -/
theorem areDatesValid_characterization_witness :
    areDatesValid "01-01-2024" "02-01-2024" DateFormat.DDMMYYYY = Except.ok true
    ∧ areDatesValid "01-01-2024" "01-01-2024" DateFormat.DDMMYYYY = Except.ok false :=
  ⟨((areDatesValid_characterization "01-01-2024" "02-01-2024" DateFormat.DDMMYYYY).1
      ⟨2024, 1, 1⟩ ⟨2024, 1, 2⟩ (by decide) (by decide)).1.mpr (by decide),
   ((areDatesValid_characterization "01-01-2024" "01-01-2024" DateFormat.DDMMYYYY).1
      ⟨2024, 1, 1⟩ ⟨2024, 1, 1⟩ (by decide) (by decide)).2 rfl⟩
